import Mathlib

/-!
Verification of the Boost.Fiber context-switch benchmark
(src/Boost/Fiber/benchmark.cpp).

The program runs a sweep of benchmark trials.  Each trial
(function bench_mark) prints a configuration header, creates a barrier and
an unbuffered channel, reads the clock, launches thread_number worker
threads, and joins them.  Each worker installs a fiber scheduler, waits on
the barrier, and then either (worker 0) spawns fiber_number fibers running
a yield loop, joins them all and closes the channel, or (other workers)
blocks in value_pop on the channel until the close makes it throw, the
exception being swallowed by a catch-all.  Afterwards the driver reads the
clock again and prints the elapsed time together with the derived
per-context-switch cost.

The shallow embedding below models:
  * the scheduler enumeration and the installation actions of
    install_fiber_scheduler;
  * the fiber workload (the bench lambda) as a fuel-indexed loop over ℤ
    counting the yields performed;
  * the sweep of main as a list of trial configurations;
  * one trial as per-thread event traces (the driver thread and each
    worker) together with a happens-before relation generated by program
    order and the cross-thread edges present in the code (thread launch,
    channel close before a pop can fail);
  * the output text of one trial, with the floating-point renderings of
    the two measured numbers kept abstract as strings;
  * the reported per-switch arithmetic over ℚ (the C++ doubles are modelled
    by rationals; the claims checked here concern the algebraic form of the
    expression, not rounding).
-/

/-- The scheduler enumeration from the source (enum class sched). -/
inductive sched
  | round_robin
  | shared_work
  | work_stealing
deriving DecidableEq, Repr

/-- The integer ordinal of a scheduler, as produced by static_cast<int>. -/
def sched.toInt : sched → ℤ
  | .round_robin => 0
  | .shared_work => 1
  | .work_stealing => 2

/-- The observable installation actions that install_fiber_scheduler can
perform via boost::fibers::use_scheduling_algorithm. -/
inductive SchedAction
  | useSharedWork
  | useWorkStealing (thread_number : ℕ) (suspend : Bool)
deriving DecidableEq, Repr

/-- install_fiber_scheduler (lines 36-43): two independent ifs; shared_work
installs algo::shared_work, work_stealing installs algo::work_stealing with
the thread count and the suspend flag, round_robin installs nothing. -/
def install_fiber_scheduler (scheduler : sched) (thread_number : ℕ)
    (suspend : Bool) : List SchedAction :=
  (if scheduler = sched.shared_work then [SchedAction.useSharedWork] else [])
    ++ (if scheduler = sched.work_stealing then
          [SchedAction.useWorkStealing thread_number suspend] else [])

/-- The bench lambda (lines 58-61):
for (auto counter = iterations; counter != 0; --counter) yield().
The counter is an int, modelled by ℤ (signed overflow in C++ is undefined,
so within defined behaviour the ideal-integer model applies).  The result
counts the yields performed; fuel bounds the number of loop steps examined
and none means the loop did not finish within the fuel. -/
def benchLoop (fuel : ℕ) (counter : ℤ) : Option ℕ :=
  match fuel with
  | 0 => if counter = 0 then some 0 else none
  | fuel + 1 =>
    if counter = 0 then some 0
    else (benchLoop fuel (counter - 1)).map (· + 1)

/-- One trial configuration (the five parameters of bench_mark). -/
structure trialConfig where
  thread_number : ℕ
  fiber_number : ℕ
  iterations : ℕ
  scheduler : sched
  suspend : Bool
deriving DecidableEq, Repr

/-- The fiber counts of the sweep (line 121). -/
def fiberNumbers : List ℕ := [1, 3, 10, 30, 100, 300, 1000, 3000]

/-- The iteration counts of the sweep (line 122); the double literals
1e4, 1e5, 1e6 are converted to int at the call. -/
def iterationCounts : List ℕ := [10000, 100000, 1000000]

/-- The schedulers of the sweep (lines 123-124). -/
def schedulers : List sched :=
  [sched.round_robin, sched.shared_work, sched.work_stealing]

/-- The thread counts of the sweep (lines 118-120):
thread_number from 1 to 2 * hardware_concurrency inclusive. -/
def threadRange (hw : ℕ) : List ℕ := (List.range (2 * hw)).map (· + 1)

/-- The innermost part of the sweep (lines 123-136): for each scheduler one
call with suspend = false, and for work_stealing an additional call with
suspend = true. -/
def schedulerPasses (t f it : ℕ) : List trialConfig :=
  schedulers.flatMap fun s =>
    { thread_number := t, fiber_number := f, iterations := it,
      scheduler := s, suspend := false } ::
      (if s = sched.work_stealing then
        [{ thread_number := t, fiber_number := f, iterations := it,
           scheduler := s, suspend := true }] else [])

/-- The sweep of main (lines 117-137), as the list of bench_mark
invocations in order. -/
def sweep (hw : ℕ) : List trialConfig :=
  (threadRange hw).flatMap fun t =>
    fiberNumbers.flatMap fun f =>
      iterationCounts.flatMap fun it =>
        schedulerPasses t f it

/-- The per-scheduler suspend options, following the spec: suspend fixed to
false for the non-stealing schedulers, both options for work_stealing. -/
def suspendOptions (s : sched) : List Bool :=
  if s = sched.work_stealing then [false, true] else [false]

/-- Modelled from the spec: the sweep as the fully nested enumeration
(outer to inner: threads, tasks, iterations, scheduler, suspend). -/
def spec_sweep (hw : ℕ) : List trialConfig :=
  (threadRange hw).flatMap fun t =>
    fiberNumbers.flatMap fun f =>
      iterationCounts.flatMap fun it =>
        schedulers.flatMap fun s =>
          (suspendOptions s).map fun susp =>
            { thread_number := t, fiber_number := f, iterations := it,
              scheduler := s, suspend := susp }

/-- The abstract events of one trial.  Thread indices and fiber indices
are natural numbers. -/
inductive Event
  | printHeader
  | constructBarrier
  | constructChannel
  | clockStart
  | launchThread (i : ℕ)
  | installScheduler (i : ℕ)
  | barrierWait (i : ℕ)
  | spawnFiber (j : ℕ)
  | joinFiber (j : ℕ)
  | channelClose
  | channelPopFail (i : ℕ)
  | joinWorker (i : ℕ)
  | clockStop
  | printResult
deriving DecidableEq, Repr

/-- The coordinator part of worker 0 (lines 83-94): construct the
fiber_number fibers (forced into a vector), join them all in order, then
close the channel. -/
def coordinatorTail (fiber_number : ℕ) : List Event :=
  (List.range fiber_number).map Event.spawnFiber
    ++ ((List.range fiber_number).map Event.joinFiber ++ [Event.channelClose])

/-- The program-order trace of worker i (lines 75-102): install the
scheduler, wait at the barrier, then branch on i == 0; a non-coordinator
blocks in value_pop until it fails after the close (lines 95-101). -/
def workerTrace (fiber_number : ℕ) (i : ℕ) : List Event :=
  Event.installScheduler i :: Event.barrierWait i ::
    (if i = 0 then coordinatorTail fiber_number else [Event.channelPopFail i])

/-- The program-order trace of the driver thread running bench_mark
(lines 51-115): header, barrier, channel, clock, thread launches (forced
into a vector at line 103), thread joins, clock, result line. -/
def driverTrace (thread_number : ℕ) : List Event :=
  Event.printHeader :: Event.constructBarrier :: Event.constructChannel ::
    Event.clockStart ::
      ((List.range thread_number).map Event.launchThread
        ++ ((List.range thread_number).map Event.joinWorker
          ++ [Event.clockStop, Event.printResult]))

/-- All events of one trial, driver first then the workers in index order
(a bag of events; ordering across threads is given by the happens-before
relation below, not by this list). -/
def trialEvents (thread_number fiber_number : ℕ) : List Event :=
  driverTrace thread_number
    ++ (List.range thread_number).flatMap (workerTrace fiber_number)

/-- Event a occurs (strictly) before event b in the trace l. -/
def listBefore (l : List Event) (a b : Event) : Prop :=
  List.Sublist [a, b] l

instance decListBefore (l : List Event) (a b : Event) :
    Decidable (listBefore l a b) :=
  inferInstanceAs (Decidable (List.Sublist [a, b] l))

/-- The happens-before generators of one trial: program order on the
driver thread, program order on each worker thread, the launch of worker i
preceding its first action, and the channel close preceding any failed pop
(value_pop can only throw the closed exception after close() ran). -/
inductive hbStep (n f : ℕ) : Event → Event → Prop
  | driver {a b : Event} : listBefore (driverTrace n) a b → hbStep n f a b
  | worker {a b : Event} (i : ℕ) : i < n → listBefore (workerTrace f i) a b →
      hbStep n f a b
  | launch (i : ℕ) : i < n →
      hbStep n f (Event.launchThread i) (Event.installScheduler i)
  | channelPop (i : ℕ) : i < n → i ≠ 0 →
      hbStep n f Event.channelClose (Event.channelPopFail i)

/-- Happens-before: the transitive closure of the generators. -/
def hb (n f : ℕ) : Event → Event → Prop :=
  Relation.TransGen (hbStep n f)

/-- The result of value_pop on a channel that is never pushed to and gets
closed: the operation fails with the closed error (boost throws
fiber_error with errc::closed). -/
def value_pop_closed : Except Unit ℤ := Except.error ()

/-- The try/catch(...) wrapper of lines 96-101: any failure of the pop is
swallowed and the worker body finishes normally. -/
def catchAll (act : Except Unit Unit) : Except Unit Unit :=
  match act with
  | .ok a => .ok a
  | .error _ => .ok ()

/-- The body of a non-coordinator worker after the barrier (lines 95-101):
pop from the channel, discard the value, absorb any failure. -/
def idleWorkerBody : Except Unit Unit :=
  catchAll (value_pop_closed.map fun _ => ())

/-- static_cast<int> applied to the suspend bool (line 55). -/
def boolToInt (b : Bool) : ℤ := if b then 1 else 0

/-- The header text printed at lines 51-55 (no newline; flushed). -/
def headerLine (c : trialConfig) : String :=
  "threads: " ++ toString c.thread_number
    ++ " fibers: " ++ toString c.fiber_number
    ++ " iterations: " ++ toString c.iterations
    ++ " scheduler: " ++ toString c.scheduler.toInt
    ++ " suspend: " ++ toString (boolToInt c.suspend)

/-- The result text printed at lines 111-114, with the renderings of the
two doubles abstract; std::endl terminates the line. -/
def resultChunk (timeText switchText : String) : String :=
  " time: " ++ timeText ++ " inter context switch: " ++ switchText ++ "\n"

/-- The full output line of one trial. -/
def trialLine (c : trialConfig) (timeText switchText : String) : String :=
  headerLine c ++ resultChunk timeText switchText

/-- Modelled from the spec: header of the form
threads: <int> fibers: <int> iterations: <int> scheduler: <int enum
ordinal> suspend: <0|1>. -/
def spec_headerText (t f it : ℕ) (ordinal suspendBit : ℤ) : String :=
  "threads: " ++ toString t ++ " fibers: " ++ toString f
    ++ " iterations: " ++ toString it ++ " scheduler: " ++ toString ordinal
    ++ " suspend: " ++ toString suspendBit

/-- The reported per-switch cost (line 114):
duration.count() / iterations / fiber_number * 1e9, a double expression
modelled over ℚ; C++ evaluates the chain left to right. -/
def reported_inter_context_switch (duration : ℚ)
    (iterations fiber_number : ℕ) : ℚ :=
  duration / iterations / fiber_number * 1e9

/-- Modelled from the spec: derived_per_switch_ns =
duration / iterations_per_task / task_count × 1e9, left to right. -/
def spec_derived_per_switch_ns (duration : ℚ)
    (iterations_per_task task_count : ℕ) : ℚ :=
  duration / iterations_per_task / task_count * 10 ^ 9

/-! Helper lemmas about the traces. -/

lemma before_of_mem_append {A B : List Event} {a b : Event}
    (ha : a ∈ A) (hb : b ∈ B) : listBefore (A ++ B) a b :=
  List.Sublist.append (List.singleton_sublist.mpr ha)
    (List.singleton_sublist.mpr hb)

lemma listBefore_append_of_left {A B : List Event} {a b : Event}
    (h : listBefore A a b) : listBefore (A ++ B) a b :=
  List.Sublist.trans h (List.sublist_append_left A B)

lemma listBefore_append_of_right {A B : List Event} {a b : Event}
    (h : listBefore B a b) : listBefore (A ++ B) a b :=
  List.Sublist.trans h (List.sublist_append_right A B)

lemma listBefore_cons {x : Event} {l : List Event} {a b : Event}
    (h : listBefore l a b) : listBefore (x :: l) a b :=
  List.Sublist.cons x h

lemma workerTrace_zero (f : ℕ) :
    workerTrace f 0 =
      Event.installScheduler 0 :: Event.barrierWait 0 :: coordinatorTail f :=
  rfl

lemma workerTrace_ne_zero (f : ℕ) {i : ℕ} (h : i ≠ 0) :
    workerTrace f i =
      [Event.installScheduler i, Event.barrierWait i, Event.channelPopFail i] := by
  simp [workerTrace, h]

lemma driverTrace_eq (n : ℕ) :
    driverTrace n =
      [Event.printHeader, Event.constructBarrier, Event.constructChannel,
        Event.clockStart]
        ++ ((List.range n).map Event.launchThread
          ++ ((List.range n).map Event.joinWorker
            ++ [Event.clockStop, Event.printResult])) :=
  rfl

lemma spawnFiber_mem_coordinatorTail {f j : ℕ} (hj : j < f) :
    Event.spawnFiber j ∈ coordinatorTail f := by
  unfold coordinatorTail
  exact List.mem_append_left _ (List.mem_map_of_mem _ (List.mem_range.mpr hj))

lemma joinFiber_mem_coordinatorTail {f j : ℕ} (hj : j < f) :
    Event.joinFiber j ∈ coordinatorTail f := by
  unfold coordinatorTail
  exact List.mem_append_right _
    (List.mem_append_left _ (List.mem_map_of_mem _ (List.mem_range.mpr hj)))

lemma install_before_barrier (f i : ℕ) :
    listBefore (workerTrace f i) (Event.installScheduler i)
      (Event.barrierWait i) := by
  unfold workerTrace listBefore
  exact List.Sublist.cons₂ _ (List.Sublist.cons₂ _ (List.nil_sublist _))

lemma joinFiber_before_close {f j : ℕ} (hj : j < f) :
    listBefore (workerTrace f 0) (Event.joinFiber j) Event.channelClose := by
  have h : listBefore
      ((List.range f).map Event.joinFiber ++ [Event.channelClose])
      (Event.joinFiber j) Event.channelClose :=
    before_of_mem_append (List.mem_map_of_mem _ (List.mem_range.mpr hj))
      (by simp)
  have h2 : listBefore (coordinatorTail f) (Event.joinFiber j)
      Event.channelClose := by
    unfold coordinatorTail
    exact listBefore_append_of_right h
  rw [workerTrace_zero]
  exact listBefore_cons (listBefore_cons h2)

lemma install_before_spawn {f : ℕ} (hf : 1 ≤ f) :
    listBefore (workerTrace f 0) (Event.installScheduler 0)
      (Event.spawnFiber 0) := by
  rw [workerTrace_zero]
  have h : listBefore (Event.barrierWait 0 :: coordinatorTail f)
      (Event.barrierWait 0) (Event.spawnFiber 0) := by
    unfold listBefore
    exact List.Sublist.cons₂ _
      (List.singleton_sublist.mpr (spawnFiber_mem_coordinatorTail hf))
  exact List.Sublist.trans (by decide : List.Sublist
      [Event.installScheduler 0, Event.spawnFiber 0]
      [Event.installScheduler 0, Event.barrierWait 0, Event.spawnFiber 0])
    (List.Sublist.cons₂ _ h)

lemma header_before_clock (n : ℕ) :
    listBefore (driverTrace n) Event.printHeader Event.clockStart := by
  rw [driverTrace_eq]
  exact listBefore_append_of_left (by decide)

lemma clock_before_launch {n i : ℕ} (hi : i < n) :
    listBefore (driverTrace n) Event.clockStart (Event.launchThread i) := by
  rw [driverTrace_eq]
  exact before_of_mem_append (by decide)
    (List.mem_append_left _ (List.mem_map_of_mem _ (List.mem_range.mpr hi)))

lemma joinWorker_before_result {n i : ℕ} (hi : i < n) :
    listBefore (driverTrace n) (Event.joinWorker i) Event.printResult := by
  rw [driverTrace_eq]
  refine listBefore_append_of_right (listBefore_append_of_right ?_)
  exact before_of_mem_append (List.mem_map_of_mem _ (List.mem_range.mpr hi))
    (by simp)

lemma stop_before_result (n : ℕ) :
    listBefore (driverTrace n) Event.clockStop Event.printResult := by
  rw [driverTrace_eq]
  exact listBefore_append_of_right (listBefore_append_of_right
    (listBefore_append_of_right (by decide)))

/-! Membership and counting lemmas. -/

lemma clockStart_not_mem_workerTrace (f i : ℕ) :
    Event.clockStart ∉ workerTrace f i := by
  unfold workerTrace
  by_cases h : i = 0 <;> simp [h, coordinatorTail]

lemma printResult_not_mem_workerTrace (f i : ℕ) :
    Event.printResult ∉ workerTrace f i := by
  unfold workerTrace
  by_cases h : i = 0 <;> simp [h, coordinatorTail]

lemma popFail_not_mem_workerTrace_zero (f k : ℕ) :
    Event.channelPopFail k ∉ workerTrace f 0 := by
  simp [workerTrace, coordinatorTail]

lemma popFail_not_mem_driverTrace (n k : ℕ) :
    Event.channelPopFail k ∉ driverTrace n := by
  simp [driverTrace]

lemma close_not_mem_driverTrace (n : ℕ) :
    Event.channelClose ∉ driverTrace n := by
  simp [driverTrace]

lemma close_not_mem_workerTrace_ne {f i : ℕ} (h : i ≠ 0) :
    Event.channelClose ∉ workerTrace f i := by
  simp [workerTrace_ne_zero f h]

lemma close_mem_workerTrace_zero (f : ℕ) :
    Event.channelClose ∈ workerTrace f 0 := by
  simp [workerTrace, coordinatorTail]

lemma install_not_mem_coordinatorTail (f k : ℕ) :
    Event.installScheduler k ∉ coordinatorTail f := by
  simp [coordinatorTail]

lemma count_install_workerTrace (f i : ℕ) :
    (workerTrace f i).count (Event.installScheduler i) = 1 := by
  unfold workerTrace
  by_cases h : i = 0
  · subst h
    simp [List.count_cons,
      List.count_eq_zero.mpr (install_not_mem_coordinatorTail f 0)]
  · simp [h, List.count_cons]

lemma count_close_workerTrace_zero (f : ℕ) :
    (workerTrace f 0).count Event.channelClose = 1 := by
  have h1 : ((List.range f).map Event.spawnFiber).count Event.channelClose
      = 0 := List.count_eq_zero.mpr (by simp)
  have h2 : ((List.range f).map Event.joinFiber).count Event.channelClose
      = 0 := List.count_eq_zero.mpr (by simp)
  simp [workerTrace, coordinatorTail, List.count_cons, List.count_append,
    h1, h2]

lemma count_printResult_driverTrace (n : ℕ) :
    (driverTrace n).count Event.printResult = 1 := by
  have h1 : ((List.range n).map Event.launchThread).count Event.printResult
      = 0 := List.count_eq_zero.mpr (by simp)
  have h2 : ((List.range n).map Event.joinWorker).count Event.printResult
      = 0 := List.count_eq_zero.mpr (by simp)
  simp [driverTrace, List.count_cons, List.count_append, h1, h2]

lemma printResult_not_mem_workers (n f : ℕ) :
    Event.printResult ∉ (List.range n).flatMap (workerTrace f) := by
  intro h
  rcases List.mem_flatMap.mp h with ⟨i, _, hmem⟩
  exact printResult_not_mem_workerTrace f i hmem

lemma count_printResult_trialEvents (n f : ℕ) :
    (trialEvents n f).count Event.printResult = 1 := by
  unfold trialEvents
  rw [List.count_append, count_printResult_driverTrace,
    List.count_eq_zero.mpr (printResult_not_mem_workers n f)]

lemma trialEvents_one (f : ℕ) :
    trialEvents 1 f = driverTrace 1 ++ workerTrace f 0 := by
  unfold trialEvents
  rw [show List.range 1 = [0] from rfl]
  simp

/-! Lemmas about the fiber workload loop. -/

lemma benchLoop_nat (iters : ℕ) :
    ∀ fuel, iters ≤ fuel → benchLoop fuel (iters : ℤ) = some iters := by
  induction iters with
  | zero => intro fuel _; cases fuel <;> simp [benchLoop]
  | succ k ih =>
    intro fuel hle
    cases fuel with
    | zero => omega
    | succ g =>
      have h0 : ((k + 1 : ℕ) : ℤ) ≠ 0 := by exact_mod_cast Nat.succ_ne_zero k
      have hcast : ((k + 1 : ℕ) : ℤ) - 1 = (k : ℤ) := by push_cast; ring
      simp only [benchLoop, h0, if_false, hcast, ih g (by omega)]
      rfl

lemma benchLoop_neg :
    ∀ (fuel : ℕ) (c : ℤ), c < 0 → benchLoop fuel c = none := by
  intro fuel
  induction fuel with
  | zero => intro c hc; simp [benchLoop, show ¬ c = 0 by omega]
  | succ g ih =>
    intro c hc
    simp [benchLoop, show ¬ c = 0 by omega, ih (c - 1) (by omega)]

/-! Lemmas about the happens-before relation. -/

lemma hb_clock_install_zero {n f : ℕ} (hn : 1 ≤ n) :
    hb n f Event.clockStart (Event.installScheduler 0) :=
  Relation.TransGen.head (hbStep.driver (clock_before_launch hn))
    (Relation.TransGen.single (hbStep.launch 0 hn))

lemma hb_install_spawn_zero {n f : ℕ} (hn : 1 ≤ n) (hf : 1 ≤ f) :
    hb n f (Event.installScheduler 0) (Event.spawnFiber 0) :=
  Relation.TransGen.single (hbStep.worker 0 hn (install_before_spawn hf))

lemma hb_join_popFail {n f i j : ℕ} (hin : i < n) (hi : i ≠ 0) (hj : j < f) :
    hb n f (Event.joinFiber j) (Event.channelPopFail i) :=
  Relation.TransGen.head
    (hbStep.worker 0 (Nat.lt_trans (Nat.pos_of_ne_zero hi) hin)
      (joinFiber_before_close hj))
    (Relation.TransGen.single (hbStep.channelPop i hin hi))

/-! Lemmas about the sweep. -/

lemma schedulerPasses_eq (t f it : ℕ) :
    schedulerPasses t f it =
      [{ thread_number := t, fiber_number := f, iterations := it,
         scheduler := sched.round_robin, suspend := false },
       { thread_number := t, fiber_number := f, iterations := it,
         scheduler := sched.shared_work, suspend := false },
       { thread_number := t, fiber_number := f, iterations := it,
         scheduler := sched.work_stealing, suspend := false },
       { thread_number := t, fiber_number := f, iterations := it,
         scheduler := sched.work_stealing, suspend := true }] := rfl

lemma schedulerPasses_spec (t f it : ℕ) :
    schedulerPasses t f it =
      schedulers.flatMap fun s =>
        (suspendOptions s).map fun susp =>
          { thread_number := t, fiber_number := f, iterations := it,
            scheduler := s, suspend := susp } := rfl

lemma length_flatMap_const {α β : Type} (l : List α) (g : α → List β)
    (k : ℕ) (h : ∀ a, (g a).length = k) :
    (l.flatMap g).length = l.length * k := by
  induction l with
  | nil => simp
  | cons a l ih => simp [h, ih, Nat.succ_mul, Nat.add_comm]

lemma sweep_inner_length (t : ℕ) :
    (fiberNumbers.flatMap fun f =>
      iterationCounts.flatMap fun it => schedulerPasses t f it).length
    = 96 := rfl

lemma sweep_length (hw : ℕ) : (sweep hw).length = 2 * hw * 96 := by
  unfold sweep
  rw [length_flatMap_const _ _ 96 sweep_inner_length]
  simp [threadRange]

lemma sweep_eq_spec_sweep (hw : ℕ) : sweep hw = spec_sweep hw := by
  unfold sweep spec_sweep
  simp only [schedulerPasses_spec]

/-! The claims. -/

/-- C1: for every trial the reported per-switch cost equals the measured
duration divided by iterations_per_task, divided by task_count, multiplied
by 1e9, in that left-to-right order: the source expression of line 114
coincides with the spec's derived_per_switch_ns, and both equal
duration × 10⁹ / (iterations × fibers). -/
theorem C1_per_switch_formula (d : ℚ) (c : trialConfig) :
    reported_inter_context_switch d c.iterations c.fiber_number
        = spec_derived_per_switch_ns d c.iterations c.fiber_number
    ∧ reported_inter_context_switch d c.iterations c.fiber_number
        = d * 10 ^ 9 / ((c.iterations : ℚ) * (c.fiber_number : ℚ)) := by
  constructor
  · unfold reported_inter_context_switch spec_derived_per_switch_ns
    norm_num
  · unfold reported_inter_context_switch
    rw [div_div, div_mul_eq_mul_div]
    norm_num

/-- C2: the sweep enumerates the full configuration space in the strictly
nested order threads, fibers, iterations, scheduler, suspend — suspend
fixed to false for round_robin and shared_work and taking both values for
work_stealing — and has exactly |threads| × |fibers| × |iterations| ×
(|non-stealing schedulers| + |stealing| × |suspend options|) entries. -/
theorem C2_sweep_enumeration (hw : ℕ) :
    sweep hw = spec_sweep hw
    ∧ (sweep hw).length
        = (threadRange hw).length * fiberNumbers.length
            * iterationCounts.length * (2 + 1 * 2)
    ∧ (threadRange hw).length = 2 * hw
    ∧ (∀ t f it, schedulerPasses t f it =
        [{ thread_number := t, fiber_number := f, iterations := it,
           scheduler := sched.round_robin, suspend := false },
         { thread_number := t, fiber_number := f, iterations := it,
           scheduler := sched.shared_work, suspend := false },
         { thread_number := t, fiber_number := f, iterations := it,
           scheduler := sched.work_stealing, suspend := false },
         { thread_number := t, fiber_number := f, iterations := it,
           scheduler := sched.work_stealing, suspend := true }]) := by
  refine ⟨sweep_eq_spec_sweep hw, ?_, by simp [threadRange],
    schedulerPasses_eq⟩
  rw [sweep_length hw]
  simp [threadRange, fiberNumbers, iterationCounts]
  ring

/-- C3 counterexample: the claim says the coordinator worker starts the
measured clock immediately before constructing the fleet, but the
coordinator worker performs no clock action at all — the clock is read by
the driver thread of bench_mark at line 69, before any worker exists. -/
theorem C3_counterexample : Event.clockStart ∉ workerTrace 1 0 := by decide

/-- C3 (amended): the driver thread starts the measured clock before
launching any worker thread, so the measured interval begins before fleet
construction; the scheduler installation (and hence the barrier wait) of
the coordinator happens between clock start and fleet construction. -/
theorem C3_clock_starts_before_workers (n f : ℕ) (hn : 1 ≤ n)
    (hf : 1 ≤ f) :
    listBefore (driverTrace n) Event.clockStart (Event.launchThread 0)
    ∧ hb n f Event.clockStart (Event.installScheduler 0)
    ∧ hb n f (Event.installScheduler 0) (Event.spawnFiber 0)
    ∧ hb n f Event.clockStart (Event.spawnFiber 0) :=
  ⟨clock_before_launch hn, hb_clock_install_zero hn,
   hb_install_spawn_zero hn hf,
   Relation.TransGen.trans (hb_clock_install_zero hn)
     (hb_install_spawn_zero hn hf)⟩

/-- Witness for the amended C3 theorem at n = 2, f = 1. -/
theorem C3_clock_witness :
    1 ≤ 2
    ∧ (listBefore (driverTrace 2) Event.clockStart (Event.launchThread 0)
      ∧ hb 2 1 Event.clockStart (Event.installScheduler 0)
      ∧ hb 2 1 (Event.installScheduler 0) (Event.spawnFiber 0)
      ∧ hb 2 1 Event.clockStart (Event.spawnFiber 0)) :=
  ⟨by decide, C3_clock_starts_before_workers 2 1 (by decide) (by decide)⟩

/-- C4: every worker thread performs the scheduler installation exactly
once and before its barrier wait; install_fiber_scheduler performs no
action for round_robin, passes the thread count and the suspend flag for
work_stealing, and installs the shared-work algorithm for shared_work. -/
theorem C4_install_once_before_barrier (f i n : ℕ) (susp : Bool) :
    (workerTrace f i).count (Event.installScheduler i) = 1
    ∧ listBefore (workerTrace f i) (Event.installScheduler i)
        (Event.barrierWait i)
    ∧ install_fiber_scheduler sched.round_robin n susp = []
    ∧ install_fiber_scheduler sched.work_stealing n susp
        = [SchedAction.useWorkStealing n susp]
    ∧ install_fiber_scheduler sched.shared_work n susp
        = [SchedAction.useSharedWork] :=
  ⟨count_install_workerTrace f i, install_before_barrier f i, rfl, rfl, rfl⟩

/-- C5: per trial the channel close appears exactly once, only in worker
0's trace, after every fiber join there; and a failed pop — the only way
any thread observes the closed channel — happens-after every fiber join. -/
theorem C5_release_channel (n f : ℕ) :
    (workerTrace f 0).count Event.channelClose = 1
    ∧ (∀ i, i ≠ 0 → Event.channelClose ∉ workerTrace f i)
    ∧ Event.channelClose ∉ driverTrace n
    ∧ (∀ j, j < f →
        listBefore (workerTrace f 0) (Event.joinFiber j) Event.channelClose)
    ∧ (∀ i, i < n → i ≠ 0 → ∀ j, j < f →
        hb n f (Event.joinFiber j) (Event.channelPopFail i)) :=
  ⟨count_close_workerTrace_zero f,
   fun _ hi => close_not_mem_workerTrace_ne hi,
   close_not_mem_driverTrace n,
   fun _ hj => joinFiber_before_close hj,
   fun _ hin hi _ hj => hb_join_popFail hin hi hj⟩

/-- Witness for C5 at n = 2, f = 1. -/
theorem C5_release_witness :
    (workerTrace 1 0).count Event.channelClose = 1
    ∧ Event.channelClose ∉ workerTrace 1 1
    ∧ listBefore (workerTrace 1 0) (Event.joinFiber 0) Event.channelClose
    ∧ hb 2 1 (Event.joinFiber 0) (Event.channelPopFail 1) :=
  ⟨(C5_release_channel 2 1).1,
   (C5_release_channel 2 1).2.1 1 (by decide),
   (C5_release_channel 2 1).2.2.2.1 0 (by decide),
   (C5_release_channel 2 1).2.2.2.2 1 (by decide) (by decide) 0 (by decide)⟩

/-- C6: a non-coordinator worker installs its scheduler, waits at the
barrier and then performs exactly one blocking pop, which can only fail
after the close; the failure is absorbed by the catch-all at the point of
use and the worker body finishes normally instead of propagating it. -/
theorem C6_idle_worker_absorbs_close (n f i : ℕ) (hi : i ≠ 0)
    (hin : i < n) :
    workerTrace f i
        = [Event.installScheduler i, Event.barrierWait i,
           Event.channelPopFail i]
    ∧ hb n f Event.channelClose (Event.channelPopFail i)
    ∧ value_pop_closed = Except.error ()
    ∧ idleWorkerBody = Except.ok () :=
  ⟨workerTrace_ne_zero f hi,
   Relation.TransGen.single (hbStep.channelPop i hin hi), rfl, rfl⟩

/-- Witness for C6 at n = 2, i = 1, f = 1. -/
theorem C6_idle_witness :
    workerTrace 1 1
        = [Event.installScheduler 1, Event.barrierWait 1,
           Event.channelPopFail 1]
    ∧ hb 2 1 Event.channelClose (Event.channelPopFail 1)
    ∧ value_pop_closed = Except.error ()
    ∧ idleWorkerBody = Except.ok () :=
  C6_idle_worker_absorbs_close 2 1 1 (by decide) (by decide)

/-- C7: each fiber's workload performs exactly its iteration count of
voluntary yields, counting down and returning at zero; the coordinator
spawns and joins all fiber_number fibers, and every join happens before
the channel close that lets the trial proceed. -/
theorem C7_fleet_workload (f iters fuel : ℕ) (hfuel : iters ≤ fuel) :
    benchLoop fuel (iters : ℤ) = some iters
    ∧ (∀ j, j < f → Event.spawnFiber j ∈ workerTrace f 0)
    ∧ (∀ j, j < f → Event.joinFiber j ∈ workerTrace f 0)
    ∧ (∀ j, j < f →
        listBefore (workerTrace f 0) (Event.joinFiber j)
          Event.channelClose) :=
  ⟨benchLoop_nat iters fuel hfuel,
   fun _ hj => by
     rw [workerTrace_zero]
     exact List.mem_cons_of_mem _ (List.mem_cons_of_mem _
       (spawnFiber_mem_coordinatorTail hj)),
   fun _ hj => by
     rw [workerTrace_zero]
     exact List.mem_cons_of_mem _ (List.mem_cons_of_mem _
       (joinFiber_mem_coordinatorTail hj)),
   fun _ hj => joinFiber_before_close hj⟩

/-- Witness for C7 at f = 2, iters = fuel = 3. -/
theorem C7_fleet_witness :
    benchLoop 3 ((3 : ℕ) : ℤ) = some 3
    ∧ Event.spawnFiber 1 ∈ workerTrace 2 0
    ∧ Event.joinFiber 1 ∈ workerTrace 2 0
    ∧ listBefore (workerTrace 2 0) (Event.joinFiber 1) Event.channelClose :=
  ⟨(C7_fleet_workload 2 3 3 (by decide)).1,
   (C7_fleet_workload 2 3 3 (by decide)).2.1 1 (by decide),
   (C7_fleet_workload 2 3 3 (by decide)).2.2.1 1 (by decide),
   (C7_fleet_workload 2 3 3 (by decide)).2.2.2 1 (by decide)⟩

/-- C8: the trial output line is the header — threads, fibers,
iterations, scheduler ordinal, suspend bit, as in the spec's form — which
is printed before the trial runs, followed on the same line by the time
and inter-context-switch fields and terminated by a newline; the header of
the spec's example configuration is exactly the expected text. -/
theorem C8_output_format (n i : ℕ) (hi : i < n) (c : trialConfig)
    (timeText switchText : String) :
    trialLine c timeText switchText
        = spec_headerText c.thread_number c.fiber_number c.iterations
            c.scheduler.toInt (boolToInt c.suspend)
          ++ (" time: " ++ timeText ++ " inter context switch: "
            ++ switchText ++ "\n")
    ∧ headerLine ⟨2, 10, 1000, sched.round_robin, false⟩
        = "threads: 2 fibers: 10 iterations: 1000 scheduler: 0 suspend: 0"
    ∧ listBefore (driverTrace n) Event.printHeader Event.clockStart
    ∧ listBefore (driverTrace n) (Event.joinWorker i) Event.printResult
    ∧ listBefore (driverTrace n) Event.clockStop Event.printResult :=
  ⟨rfl, rfl, header_before_clock n, joinWorker_before_result hi,
   stop_before_result n⟩

/-- Witness for C8 at n = 1, i = 0 and a concrete configuration. -/
theorem C8_output_witness :
    trialLine ⟨2, 10, 1000, sched.round_robin, false⟩ "0.5" "50"
        = spec_headerText 2 10 1000 (sched.round_robin.toInt)
            (boolToInt false)
          ++ (" time: " ++ "0.5" ++ " inter context switch: "
            ++ "50" ++ "\n")
    ∧ headerLine ⟨2, 10, 1000, sched.round_robin, false⟩
        = "threads: 2 fibers: 10 iterations: 1000 scheduler: 0 suspend: 0"
    ∧ listBefore (driverTrace 1) Event.printHeader Event.clockStart
    ∧ listBefore (driverTrace 1) (Event.joinWorker 0) Event.printResult
    ∧ listBefore (driverTrace 1) Event.clockStop Event.printResult :=
  C8_output_format 1 0 (by decide)
    ⟨2, 10, 1000, sched.round_robin, false⟩ "0.5" "50"

/-- C9: every trial emits exactly one result line; with a single thread
the only worker is the coordinator, no pop is ever attempted (so nothing
can block on the channel), while the close still occurs.  Termination of
the trial is modelled by the totality of the trace functions. -/
theorem C9_one_result_single_thread (n f : ℕ) (_hn : 1 ≤ n) (_hf : 1 ≤ f) :
    (trialEvents n f).count Event.printResult = 1
    ∧ trialEvents 1 f = driverTrace 1 ++ workerTrace f 0
    ∧ (∀ k, Event.channelPopFail k ∉ trialEvents 1 f)
    ∧ Event.channelClose ∈ trialEvents 1 f := by
  refine ⟨count_printResult_trialEvents n f, trialEvents_one f, ?_, ?_⟩
  · intro k h
    rw [trialEvents_one] at h
    rcases List.mem_append.mp h with h | h
    · exact popFail_not_mem_driverTrace 1 k h
    · exact popFail_not_mem_workerTrace_zero f k h
  · rw [trialEvents_one]
    exact List.mem_append_right _ (close_mem_workerTrace_zero f)

/-- Witness for C9 at n = 2, f = 1. -/
theorem C9_one_result_witness :
    (trialEvents 2 1).count Event.printResult = 1
    ∧ trialEvents 1 1 = driverTrace 1 ++ workerTrace 1 0
    ∧ Event.channelPopFail 1 ∉ trialEvents 1 1
    ∧ Event.channelClose ∈ trialEvents 1 1 :=
  ⟨(C9_one_result_single_thread 2 1 (by decide) (by decide)).1,
   (C9_one_result_single_thread 2 1 (by decide) (by decide)).2.1,
   (C9_one_result_single_thread 2 1 (by decide) (by decide)).2.2.1 1,
   (C9_one_result_single_thread 2 1 (by decide) (by decide)).2.2.2⟩

/-- C10: the loop guard compares the countdown with zero by inequality,
so for every start value iterations ≥ 0 the loop performs exactly
iterations yields and returns, while from any negative start value the
countdown never reaches zero and the loop never terminates — a
non-negative count is necessary for termination. -/
theorem C10_loop_termination :
    (∀ iters fuel : ℕ, iters ≤ fuel →
      benchLoop fuel (iters : ℤ) = some iters)
    ∧ (∀ c : ℤ, c < 0 → ∀ fuel : ℕ, benchLoop fuel c = none) :=
  ⟨fun i fu h => benchLoop_nat i fu h, fun c hc fu => benchLoop_neg fu c hc⟩

/-- Witness for C10 at iterations 3 (fuel 4) and start value -2. -/
theorem C10_loop_witness :
    benchLoop 4 ((3 : ℕ) : ℤ) = some 3 ∧ benchLoop 4 (-2) = none :=
  ⟨C10_loop_termination.1 3 4 (by decide),
   C10_loop_termination.2 (-2) (by decide) 4⟩
